import Mathlib

/-!
Shallow embedding of the Async Task Bridge of `haproxy-api-rs`
(`src/async.rs`, with the channel variant of `HaproxyFuture::poll` from
`src/core.rs`), together with theorems settling the specification claims.

The global `FUTURE_RX_MAP : DashMap<FutureId, Receiver<()>>` is modelled as an
association list with distinct keys; receivers are opaque tokens (`Nat`).
A hash map has no observable ordering, so insertion is modelled as
cons-after-erase, which has exactly the lookup/remove semantics of
`DashMap::insert` (overwrite when the key is present, add otherwise).
-/

namespace HaproxyApi

/-- Task identifier: `type FutureId = u16` in `src/async.rs`. -/
abbrev FutureId := Nat

/-- Opaque completion-receiver token (`tokio::sync::oneshot::Receiver<()>`). -/
abbrev Rx := Nat

/-- Size of the `u16` id space: ids are taken modulo `2^16`. -/
def idWidth : Nat := 65536

/-- Model of the global `FUTURE_RX_MAP`: id-to-receiver association list. -/
abbrev Registry := List (FutureId × Rx)

/-- Lookup of a key, first match wins (maps have distinct keys anyway). -/
def regLookup (reg : Registry) (id : FutureId) : Option Rx :=
  match reg with
  | [] => none
  | (k, v) :: rest => if k = id then some v else regLookup rest id

/-- Removal of a key, as performed by `DashMap::remove`. -/
def regErase (reg : Registry) (id : FutureId) : Registry :=
  reg.filter (fun e => e.1 != id)

/-- `DashMap::insert`: overwrite the entry for `id` if present, else add it. -/
def regInsert (reg : Registry) (id : FutureId) (rx : Rx) : Registry :=
  (id, rx) :: regErase reg id

/-- `get_rx_by_future_id` (src/async.rs:55): `FUTURE_RX_MAP.remove(&future_id)`
returns the receiver if the id is registered and deletes the entry. -/
def get_rx_by_future_id (reg : Registry) (id : FutureId) : Option Rx × Registry :=
  (regLookup reg id, regErase reg id)

/-- `set_rx_by_future_id` (src/async.rs:59): `FUTURE_RX_MAP.insert(future_id, rx)`. -/
def set_rx_by_future_id (reg : Registry) (id : FutureId) (rx : Rx) : Registry :=
  regInsert reg id rx

/-- The keys of the registry are pairwise distinct (a map invariant). -/
def keysNodup (reg : Registry) : Prop := (reg.map Prod.fst).Nodup

/-- Well-formedness of the registry: distinct keys, all inside the `u16` space. -/
def regWf (reg : Registry) : Prop :=
  keysNodup reg ∧ ∀ e ∈ reg, e.1 < idWidth

theorem regLookup_regErase_self (reg : Registry) (id : FutureId) :
    regLookup (regErase reg id) id = none := by
  induction reg with
  | nil => rfl
  | cons e rest ih =>
    obtain ⟨k, v⟩ := e
    by_cases h : k = id
    · subst h
      simpa [regErase, List.filter_cons] using ih
    · simp only [regErase, List.filter_cons] at ih ⊢
      simp [h, regLookup, ih]

theorem regErase_regErase_self (reg : Registry) (id : FutureId) :
    regErase (regErase reg id) id = regErase reg id := by
  simp [regErase, List.filter_filter]

theorem regLookup_regInsert_self (reg : Registry) (id : FutureId) (rx : Rx) :
    regLookup (regInsert reg id rx) id = some rx := by
  simp [regInsert, regLookup]

/-- **C1.** For every TaskId with a registered completion receiver, the first
consume returns the receiver and removes the registry entry; every subsequent
consume of the same id returns nothing and leaves the registry untouched (so
all later consumes also fail), until a new receiver is registered for that id,
after which consume succeeds again.  A completion is claimed at most once. -/
theorem consume_at_most_once (reg : Registry) (id : FutureId) (rx : Rx)
    (h : regLookup reg id = some rx) :
    (get_rx_by_future_id reg id).1 = some rx ∧
    regLookup (get_rx_by_future_id reg id).2 id = none ∧
    get_rx_by_future_id (get_rx_by_future_id reg id).2 id =
      (none, (get_rx_by_future_id reg id).2) ∧
    ∀ rx2, (get_rx_by_future_id
      (set_rx_by_future_id (get_rx_by_future_id reg id).2 id rx2) id).1 = some rx2 := by
  refine ⟨h, ?_, ?_, ?_⟩
  · exact regLookup_regErase_self reg id
  · simp [get_rx_by_future_id, regLookup_regErase_self, regErase_regErase_self]
  · intro rx2
    simp [get_rx_by_future_id, set_rx_by_future_id, regLookup_regInsert_self]

/-- Witness for C1 at the concrete registry `[(4, 9)]`. -/
theorem consume_at_most_once_witness :
    (get_rx_by_future_id [(4, 9)] 4).1 = some 9 ∧
    regLookup (get_rx_by_future_id [(4, 9)] 4).2 4 = none :=
  ⟨(consume_at_most_once [(4, 9)] 4 9 (by decide)).1,
   (consume_at_most_once [(4, 9)] 4 9 (by decide)).2.1⟩

theorem regErase_eq_self_of_not_mem (reg : Registry) (id : FutureId)
    (h : id ∉ reg.map Prod.fst) : regErase reg id = reg := by
  refine List.filter_eq_self.mpr ?_
  intro e he
  have : e.1 ≠ id := fun hk => h (List.mem_map.mpr ⟨e, he, hk⟩)
  simpa using this

theorem regErase_length_of_mem (reg : Registry) (id : FutureId)
    (hmem : (regLookup reg id).isSome) (hnd : keysNodup reg) :
    (regErase reg id).length + 1 = reg.length := by
  induction reg with
  | nil => simp [regLookup] at hmem
  | cons e rest ih =>
    obtain ⟨k, v⟩ := e
    simp only [keysNodup, List.map_cons, List.nodup_cons] at hnd
    simp only [regErase, List.filter_cons]
    by_cases h : k = id
    · subst h
      have hrest : regErase rest k = rest := regErase_eq_self_of_not_mem rest k hnd.1
      simp only [regErase] at hrest
      rw [if_neg (by simp), hrest]
      simp
    · have hmem' : (regLookup rest id).isSome := by
        simpa [regLookup, h] using hmem
      have hrec := ih hmem' hnd.2
      simp only [regErase] at hrec
      rw [if_pos (by simpa using h)]
      simp only [List.length_cons]
      omega

theorem regWf_regInsert (reg : Registry) (id : FutureId) (rx : Rx)
    (h : regWf reg) (hid : id < idWidth) : regWf (regInsert reg id rx) := by
  obtain ⟨hnd, hlt⟩ := h
  constructor
  · simp only [regInsert, keysNodup, List.map_cons, List.nodup_cons]
    refine ⟨?_, ?_⟩
    · intro hmem
      obtain ⟨e, he, h1⟩ := List.mem_map.mp hmem
      have h2 := (List.mem_filter.mp he).2
      rw [h1] at h2
      simp at h2
    · exact (hnd.sublist ((List.filter_sublist reg).map Prod.fst))
  · intro e he
    rcases List.mem_cons.mp he with h1 | h1
    · rw [h1]; exact hid
    · exact hlt e (List.mem_filter.mp h1).1

theorem reg_length_le_idWidth (reg : Registry) (h : regWf reg) :
    reg.length ≤ idWidth := by
  obtain ⟨hnd, hlt⟩ := h
  have h2 : (reg.map Prod.fst).toFinset.card = (reg.map Prod.fst).length :=
    List.toFinset_card_of_nodup hnd
  have h3 : (reg.map Prod.fst).toFinset ⊆ Finset.range idWidth := by
    intro x hx
    rw [List.mem_toFinset] at hx
    obtain ⟨e, he, hfst⟩ := List.mem_map.mp hx
    exact Finset.mem_range.mpr (hfst ▸ hlt e he)
  have h4 := Finset.card_le_card h3
  rw [Finset.card_range, h2, List.length_map] at h4
  exact h4

/-- **C5.** The registry holds at most one live entry per TaskId: registering
a receiver for an id that already has an unclaimed entry overwrites the stale
entry (the new receiver is the one found, the size does not grow), and a
well-formed registry never exceeds the `u16` id space of `2^16` entries. -/
theorem registry_overwrite_and_bounded (reg : Registry) (id : FutureId) (rx : Rx)
    (hwf : regWf reg) (hid : id < idWidth) :
    regWf (set_rx_by_future_id reg id rx) ∧
    regLookup (set_rx_by_future_id reg id rx) id = some rx ∧
    ((regLookup reg id).isSome →
      (set_rx_by_future_id reg id rx).length = reg.length) ∧
    (set_rx_by_future_id reg id rx).length ≤ idWidth := by
  have hwf' := regWf_regInsert reg id rx hwf hid
  refine ⟨hwf', regLookup_regInsert_self reg id rx, ?_, reg_length_le_idWidth _ hwf'⟩
  intro hsome
  have hlen := regErase_length_of_mem reg id hsome hwf.1
  simp only [set_rx_by_future_id, regInsert, List.length_cons]
  omega

/-- Witness for C5 at the concrete registry `[(3, 1)]`, overwriting id 3. -/
theorem registry_overwrite_and_bounded_witness :
    regLookup (set_rx_by_future_id [(3, 1)] 3 2) 3 = some 2 ∧
    (set_rx_by_future_id [(3, 1)] 3 2).length = [(3, 1)].length :=
  ⟨(registry_overwrite_and_bounded [(3, 1)] 3 2 ⟨by simp [keysNodup], by decide⟩ (by decide)).2.1,
   (registry_overwrite_and_bounded [(3, 1)] 3 2
      ⟨by simp [keysNodup], by decide⟩ (by decide)).2.2.1 (by decide)⟩

/-- Initial value of the allocation counter: `AtomicU16::new(1)` (src/async.rs:111). -/
def NEXT_ID_init : Nat := 1

/-- One allocation step, `NEXT_ID.fetch_add(1, Ordering::Relaxed)` on a `u16`:
returns the current counter value and stores it incremented by one, with
wrapping arithmetic modulo `2^16`. -/
def allocFutureId (c : Nat) : Nat × Nat := (c, (c + 1) % idWidth)

/-- Counter value right before allocation number `n` (allocations numbered from 0). -/
def counterBefore : Nat → Nat
  | 0 => NEXT_ID_init
  | n + 1 => (allocFutureId (counterBefore n)).2

/-- The id returned by allocation number `n`. -/
def nthFutureId (n : Nat) : Nat := (allocFutureId (counterBefore n)).1

theorem counterBefore_eq (n : Nat) : counterBefore n = (1 + n) % idWidth := by
  induction n with
  | zero => simp [counterBefore, NEXT_ID_init, idWidth]
  | succ n ih =>
    show (counterBefore n + 1) % idWidth = (1 + (n + 1)) % idWidth
    rw [ih, ← Nat.add_assoc]
    conv_rhs => rw [Nat.add_mod]
    norm_num [idWidth]

theorem nthFutureId_eq (n : Nat) : nthFutureId n = (1 + n) % idWidth := by
  rw [nthFutureId, allocFutureId, counterBefore_eq]

/-- **C8.** TaskId allocation is a monotonically increasing counter modulo
`2^16`: the counter starts at 1, each allocation returns the current counter
value and increments it with wrapping arithmetic, ids within the next 65535
further allocations are all distinct from the current one, and the same id
value is produced again right after those 65535 further allocations (period
`2^16`); wraparound is never an error. -/
theorem future_id_counter_wraparound (n : Nat) :
    counterBefore 0 = 1 ∧
    nthFutureId 0 = 1 ∧
    nthFutureId n = (NEXT_ID_init + n) % idWidth ∧
    (∀ k, 1 ≤ k → k < idWidth → nthFutureId (n + k) ≠ nthFutureId n) ∧
    nthFutureId (n + idWidth) = nthFutureId n := by
  refine ⟨rfl, rfl, nthFutureId_eq n, ?_, ?_⟩
  · intro k h1 h2 heq
    rw [nthFutureId_eq, nthFutureId_eq] at heq
    have hm : Nat.ModEq idWidth ((1 + n) + k) ((1 + n) + 0) := by
      simpa [Nat.ModEq, Nat.add_assoc] using heq
    have hk0 : Nat.ModEq idWidth k 0 := Nat.ModEq.add_left_cancel' (1 + n) hm
    have hdvd : idWidth ∣ k := (Nat.modEq_zero_iff_dvd).mp hk0
    have := Nat.le_of_dvd (by omega) hdvd
    omega
  · rw [nthFutureId_eq, nthFutureId_eq, ← Nat.add_assoc, Nat.add_mod_right]

/-- Witness for C8: the id of allocation 1 differs from that of allocation 0. -/
theorem future_id_counter_wraparound_witness : nthFutureId 1 ≠ nthFutureId 0 :=
  (future_id_counter_wraparound 0).2.2.2.1 1 (by decide) (by decide)

/-- `PER_WORKER_POOL_SIZE` (src/async.rs:27): fixed pool capacity of 512. -/
def PER_WORKER_POOL_SIZE : Nat := 512

/-- `ObjectPool(Vec<RegistryKey>)` (src/async.rs:236): pooled connection
objects, modelled as a list with the most recently pushed object first (the
`Vec` is used purely as a stack via `push`/`pop`). -/
structure ObjectPool where
  objs : List Nat

/-- The `get` method (src/async.rs:246): `this.0.pop()` removes and returns
the most recently pushed object, or returns nothing on an empty pool. -/
def ObjectPool.get (p : ObjectPool) : Option Nat × ObjectPool :=
  match p.objs with
  | [] => (none, p)
  | o :: rest => (some o, ⟨rest⟩)

/-- The `put` method (src/async.rs:248): return `false` without storing when
the pool is at `PER_WORKER_POOL_SIZE`, else push the object and return `true`. -/
def ObjectPool.put (p : ObjectPool) (obj : Nat) : Bool × ObjectPool :=
  if p.objs.length = PER_WORKER_POOL_SIZE then (false, p)
  else (true, ⟨obj :: p.objs⟩)

/-- **C4.** The connection pool never exceeds its fixed capacity of 512:
`put` on a pool holding exactly 512 entries returns `false` and leaves the
pool unchanged, `put` on a pool holding fewer than 512 entries stores the
object and returns `true`, and both `put` and `get` preserve the capacity
bound. -/
theorem pool_capacity (p : ObjectPool) (obj : Nat) :
    (p.objs.length = PER_WORKER_POOL_SIZE → ObjectPool.put p obj = (false, p)) ∧
    (p.objs.length < PER_WORKER_POOL_SIZE →
      ObjectPool.put p obj = (true, ⟨obj :: p.objs⟩)) ∧
    (p.objs.length ≤ PER_WORKER_POOL_SIZE →
      (ObjectPool.put p obj).2.objs.length ≤ PER_WORKER_POOL_SIZE ∧
      (ObjectPool.get p).2.objs.length ≤ PER_WORKER_POOL_SIZE) := by
  refine ⟨?_, ?_, ?_⟩
  · intro h
    simp [ObjectPool.put, h]
  · intro h
    simp [ObjectPool.put, Nat.ne_of_lt h]
  · intro h
    constructor
    · by_cases hc : p.objs.length = PER_WORKER_POOL_SIZE
      · simp [ObjectPool.put, hc]
      · simp only [ObjectPool.put, if_neg hc, List.length_cons]
        omega
    · cases hp : p.objs with
      | nil => simp [ObjectPool.get, hp]
      | cons o rest =>
        simp only [ObjectPool.get, hp]
        rw [hp] at h
        simp only [List.length_cons] at h
        omega

/-- Witness for C4: a full pool of 512 entries rejects `put`, the empty pool
accepts it. -/
theorem pool_capacity_witness :
    ObjectPool.put ⟨List.replicate 512 0⟩ 7 = (false, ⟨List.replicate 512 0⟩) ∧
    ObjectPool.put ⟨[]⟩ 7 = (true, ⟨[7]⟩) :=
  ⟨(pool_capacity ⟨List.replicate 512 0⟩ 7).1
      (by simp only [List.length_replicate, PER_WORKER_POOL_SIZE]),
   (pool_capacity ⟨[]⟩ 7).2.1 (by simp [PER_WORKER_POOL_SIZE])⟩

/-!
Notification server, src/async.rs:77-107: per connection the server reads
lines; a trimmed `PING` line is answered with `PONG\n`; a line parsing as a
`u16` id is answered with `READY\n` after awaiting the registered receiver,
or with `ERR\n` when no receiver is registered; anything else is ignored.
The handler is modelled as the list of externally visible actions it performs
for one line, in order.
-/

/-- An externally visible action of the notification-server line handler. -/
inductive ServerAction where
  | awaitRx (rx : Rx)
  | write (s : String)
deriving DecidableEq

/-- `str::trim` on the received line: strip leading and trailing whitespace. -/
def trimChars (cs : List Char) : List Char :=
  ((cs.dropWhile Char.isWhitespace).reverse.dropWhile Char.isWhitespace).reverse

/-- `line.parse::<u16>()` (Rust `u16: FromStr`): an optional leading `+`
followed by one or more ASCII digits whose value fits in a `u16`; anything
else (empty, other characters, values above 65535) fails. -/
def parseFutureId (cs : List Char) : Option Nat :=
  let ds := match cs with
    | '+' :: rest => rest
    | _ => cs
  if ds.isEmpty then none
  else if ds.all Char.isDigit then
    let n := ds.foldl (fun acc c => acc * 10 + (c.toNat - 48)) 0
    if n < idWidth then some n else none
  else none

/-- Handling of one received line (src/async.rs:83-103): the trimmed line is
matched against `PING`, then parsed as a `u16` id; a registered id is consumed
from the registry and its receiver awaited before `READY\n` is written. -/
def processLine (line : List Char) (reg : Registry) : List ServerAction × Registry :=
  let t := trimChars line
  if t = "PING".data then ([.write "PONG\n"], reg)
  else
    match parseFutureId t with
    | some id =>
      match get_rx_by_future_id reg id with
      | (some rx, reg') => ([.awaitRx rx, .write "READY\n"], reg')
      | (none, reg') => ([.write "ERR\n"], reg')
    | none => ([], reg)

/-- The per-connection read loop (src/async.rs:83): lines are handled in
order, threading the registry through. -/
def processLines : List (List Char) → Registry → List ServerAction × Registry
  | [], reg => ([], reg)
  | l :: ls, reg =>
    let r1 := processLine l reg
    let r2 := processLines ls r1.2
    (r1.1 ++ r2.1, r2.2)

theorem processLine_write_mem (line : List Char) (reg : Registry) (s : String)
    (hs : ServerAction.write s ∈ (processLine line reg).1) :
    s = "PONG\n" ∨ s = "READY\n" ∨ s = "ERR\n" := by
  unfold processLine at hs
  by_cases h1 : trimChars line = "PING".data
  · rw [if_pos h1] at hs
    simp at hs
    exact Or.inl hs
  · rw [if_neg h1] at hs
    cases hp : parseFutureId (trimChars line) with
    | none =>
      rw [hp] at hs
      simp at hs
    | some id =>
      rw [hp] at hs
      cases hr : regLookup reg id with
      | none =>
        simp [get_rx_by_future_id, hr] at hs
        exact Or.inr (Or.inr hs)
      | some rx =>
        simp [get_rx_by_future_id, hr] at hs
        exact Or.inr (Or.inl hs)

/-- **C2.** For every line received by the notification server: a trimmed
`PING` line is answered with exactly `PONG\n`; a line parsing as a decimal
task id with a registered receiver makes the server await that receiver's
completion signal and only then write `READY\n` (consuming the registry
entry); a parseable id with no registered receiver is answered with `ERR\n`;
and every reply written is newline-terminated. -/
theorem server_line_replies (line : List Char) (reg : Registry) :
    (trimChars line = "PING".data →
      processLine line reg = ([.write "PONG\n"], reg)) ∧
    (∀ id rx, trimChars line ≠ "PING".data →
      parseFutureId (trimChars line) = some id →
      regLookup reg id = some rx →
      processLine line reg = ([.awaitRx rx, .write "READY\n"], regErase reg id)) ∧
    (∀ id, trimChars line ≠ "PING".data →
      parseFutureId (trimChars line) = some id →
      regLookup reg id = none →
      processLine line reg = ([.write "ERR\n"], regErase reg id)) ∧
    (∀ s, ServerAction.write s ∈ (processLine line reg).1 →
      s.data.getLast? = some '\n') := by
  refine ⟨?_, ?_, ?_, ?_⟩
  · intro h
    simp [processLine, h]
  · intro id rx hne hp hr
    simp [processLine, hne, hp, get_rx_by_future_id, hr]
  · intro id hne hp hr
    simp [processLine, hne, hp, get_rx_by_future_id, hr]
  · intro s hs
    rcases processLine_write_mem line reg s hs with h | h | h <;> subst h <;> decide

/-- Witness for C2: `PING`, a registered id 5, and an unregistered id 6
against the registry `[(5, 9)]`. -/
theorem server_line_replies_witness :
    processLine " PING ".data [(5, 9)] = ([.write "PONG\n"], [(5, 9)]) ∧
    processLine "5".data [(5, 9)] = ([.awaitRx 9, .write "READY\n"], []) ∧
    processLine "6".data [(5, 9)] = ([.write "ERR\n"], [(5, 9)]) :=
  ⟨(server_line_replies " PING ".data [(5, 9)]).1 (by decide),
   (server_line_replies "5".data [(5, 9)]).2.1 5 9 (by decide) (by decide) (by decide),
   (server_line_replies "6".data [(5, 9)]).2.2.1 6 (by decide) (by decide) (by decide)⟩

/-- **C10.** A line that is neither a trimmed `PING` nor parseable as a
decimal 16-bit task id (this includes numeric strings above 65535) produces
no reply at all and leaves the registry untouched, and the read loop simply
continues with the remaining lines of the connection. -/
theorem server_ignores_unparseable (line : List Char) (reg : Registry)
    (h1 : trimChars line ≠ "PING".data)
    (h2 : parseFutureId (trimChars line) = none) :
    processLine line reg = ([], reg) ∧
    ∀ ls, processLines (line :: ls) reg = processLines ls reg := by
  have hstep : processLine line reg = ([], reg) := by
    simp [processLine, h1, h2]
  refine ⟨hstep, ?_⟩
  intro ls
  simp [processLines, hstep]

/-- Witness for C10: the out-of-range numeric line `65536` and a garbage
line are both ignored. -/
theorem server_ignores_unparseable_witness :
    processLine "65536".data [(5, 9)] = ([], [(5, 9)]) ∧
    processLine "hello".data [(5, 9)] = ([], [(5, 9)]) :=
  ⟨(server_ignores_unparseable "65536".data [(5, 9)] (by decide) (by decide)).1,
   (server_ignores_unparseable "hello".data [(5, 9)] (by decide) (by decide)).1⟩

/-!
Overridden `coroutine.yield` (the Lua chunk in `YieldFixUp::new`,
src/async.rs:174-217).  The override is modelled as the ordered list of
externally visible actions one invocation performs; the environment supplies
the outcome of each fallible step (pool lookup, connect, send, receive, pool
put).  The action alphabet includes `raiseError`, the Lua `error(...)` call,
so that its absence from every trace is a statement about the code and not an
artifact of the model.
-/

/-- An externally visible action of the overridden yield function. -/
inductive YieldAction where
  | poolGet
  | tcpConnect
  | sendId
  | recvLine
  | sockClose
  | poolPut
  | msleep (ms : Nat)
  | raiseError (msg : List Char)
deriving DecidableEq

/-- Outcomes of the fallible steps of one invocation of the overridden yield. -/
structure YieldEnv where
  pooledSock : Bool
  connectErr : Bool
  sendErr : Bool
  recvErr : Bool
  recvLine : List Char
  putOk : Bool
deriving DecidableEq

/-- The send/receive/checkin part of the overridden yield, reached once a
connection is available (src/async.rs:193-215). -/
def yieldAfterConnect (env : YieldEnv) (pre : List YieldAction) : List YieldAction :=
  if env.sendErr then pre ++ [.sendId, .sockClose, .msleep 1]
  else if env.recvErr then pre ++ [.sendId, .recvLine, .sockClose, .msleep 1]
  else
    pre ++ [.sendId, .recvLine] ++
      (if env.recvLine = "READY".data then [] else [.msleep 1]) ++
      [.poolPut] ++ (if env.putOk then [] else [.sockClose])

/-- One invocation of the overridden `coroutine.yield`
(src/async.rs:177-216): get a pooled connection or create and connect a new
one, send the active future id, receive the reply line, and check the
connection back in; every failure path sleeps 1 ms and returns. -/
def newYield (env : YieldEnv) : List YieldAction :=
  if env.pooledSock then yieldAfterConnect env [.poolGet]
  else if env.connectErr then [.poolGet, .tcpConnect, .msleep 1]
  else yieldAfterConnect env [.poolGet, .tcpConnect]

/-- A transport failure actually occurs during the invocation: the connect
of a freshly created socket fails, or the send fails, or the receive fails. -/
def isTransportFailure (env : YieldEnv) : Prop :=
  (env.pooledSock = false ∧ env.connectErr = true) ∨
  env.sendErr = true ∨ env.recvErr = true

theorem raiseError_not_mem_newYield (msg : List Char) (env : YieldEnv) :
    YieldAction.raiseError msg ∉ newYield env := by
  obtain ⟨p, c, s, r, lineRecv, put⟩ := env
  by_cases hl : lineRecv = "READY".data <;>
    cases p <;> cases c <;> cases s <;> cases r <;> cases put <;>
      simp [newYield, yieldAfterConnect, hl]

/-- **C6.** Every transport I/O failure during the overridden yield (connect,
send, or receive error) makes the client pause 1 ms and return control to the
scheduler without pooling the connection (send/receive failures on an
established connection additionally close it); no invocation of the override,
failing or not, ever raises a script-visible error. -/
theorem yield_transport_failure_recovery (env : YieldEnv)
    (h : isTransportFailure env) :
    YieldAction.msleep 1 ∈ newYield env ∧
    YieldAction.poolPut ∉ newYield env ∧
    ((env.pooledSock = true ∨ env.connectErr = false) →
      YieldAction.sockClose ∈ newYield env) ∧
    ∀ msg env2, YieldAction.raiseError msg ∉ newYield env2 := by
  obtain ⟨p, c, s, r, lineRecv, put⟩ := env
  simp only [isTransportFailure] at h
  refine ⟨?_, ?_, ?_, fun msg env2 => raiseError_not_mem_newYield msg env2⟩ <;>
    cases p <;> cases c <;> cases s <;> cases r <;> cases put <;>
      simp_all [newYield, yieldAfterConnect]

/-- Witness for C6 at a concrete environment whose send fails. -/
theorem yield_transport_failure_recovery_witness :
    YieldAction.msleep 1 ∈ newYield ⟨true, false, true, false, [], true⟩ ∧
    YieldAction.poolPut ∉ newYield ⟨true, false, true, false, [], true⟩ :=
  ⟨(yield_transport_failure_recovery ⟨true, false, true, false, [], true⟩
      (Or.inr (Or.inl rfl))).1,
   (yield_transport_failure_recovery ⟨true, false, true, false, [], true⟩
      (Or.inr (Or.inl rfl))).2.1⟩

/-!
`YieldFixUp::drop` (src/async.rs:225-234, identically src/core.rs:618-628):
restore the original `coroutine.yield`; if the restoration fails, print the
error and swallow it.
-/

/-- An externally visible action of the drop handler. -/
inductive DropAction where
  | restoreYield
  | logError (msg : List Char)
  | propagateError (msg : List Char)
deriving DecidableEq

/-- `YieldFixUp::drop`: attempt `coroutine.set("yield", orig)` once; `none`
means the restoration succeeded, `some e` that it failed with error `e`, in
which case the error is only printed.  `propagateError` is in the action
alphabet but never emitted: the destructor swallows the failure. -/
def yieldFixUpDrop (restoreErr : Option (List Char)) : List DropAction :=
  match restoreErr with
  | none => [.restoreYield]
  | some e => [.restoreYield, .logError e]

/-- **C7.** Dropping the YieldFixUp guard restores the original
`coroutine.yield` exactly once, and a failing restoration is logged only —
the failure is never propagated to the caller. -/
theorem yield_fixup_drop_restores_once (restoreErr : Option (List Char)) :
    (yieldFixUpDrop restoreErr).count DropAction.restoreYield = 1 ∧
    (∀ msg, DropAction.propagateError msg ∉ yieldFixUpDrop restoreErr) ∧
    (∀ e, restoreErr = some e → DropAction.logError e ∈ yieldFixUpDrop restoreErr) := by
  cases restoreErr <;>
    simp [yieldFixUpDrop, List.count_cons, List.count_nil]

/-- Witness for C7 at a concrete failing restoration. -/
theorem yield_fixup_drop_restores_once_witness :
    DropAction.logError "boom".data ∈ yieldFixUpDrop (some "boom".data) :=
  (yield_fixup_drop_restores_once (some "boom".data)).2.2 "boom".data rfl

/-!
`HaproxyFuture::poll`.  The repository has two variants: the notification
variant (src/async.rs:267-284), which on Pending records the future id in the
global `__RUST_ACTIVE_FUTURE_ID` and on Ready simply forwards the result, and
the channel variant (src/core.rs:641-670), which on Pending records the wake
channel in `__HAPROXY_ACTIVE_CHANNEL` and on Ready removes the id-to-channel
entry and returns the channel to the bounded pool.  Results of the wrapped
operation are `Except String R` (mlua `Result`); channels and registry keys
are opaque tokens.
-/

/-- Outcome of polling a future. -/
inductive PollRes (R : Type) where
  | ready (r : Except String R)
  | pending

/-- The Lua globals touched by the notification-variant poll. -/
structure AsyncLuaGlobals where
  activeFutureId : Option Nat
deriving DecidableEq

/-- Notification-variant `HaproxyFuture::poll` (src/async.rs:273-283): on
an unresolved inner future, record the id as the active future id and stay
pending; on a resolved one, forward the result.  The global `FUTURE_RX_MAP`
is passed through to make visible that this poll never touches it. -/
def haproxyFuturePollA {R : Type} (id : FutureId) (inner : PollRes R)
    (globals : AsyncLuaGlobals) (reg : Registry) :
    PollRes R × AsyncLuaGlobals × Registry :=
  match inner with
  | .ready res => (.ready res, globals, reg)
  | .pending => (.pending, { activeFutureId := some id }, reg)

/-- `POOL_MAX_SIZE` (src/core.rs:414): capacity of the channel pool. -/
def POOL_MAX_SIZE : Nat := 512

/-- The `Lua` app data touched by the channel-variant poll: the channel pool
(`Pool`, most recently pushed first) and the id-to-channel map
(`FutureChannelMap`). -/
structure CoreAppData where
  pool : List Nat
  future2channel : List (FutureId × Nat)
deriving DecidableEq

/-- The Lua globals touched by the channel-variant poll. -/
structure CoreLuaGlobals where
  activeChannel : Option Nat
deriving DecidableEq

/-- Channel-variant `HaproxyFuture::poll` (src/core.rs:648-669): on a
resolved inner future, remove the id's channel from `FutureChannelMap` and
push it back on the pool when the pool is below `POOL_MAX_SIZE`, then return
the result; on an unresolved one, record the wake channel as active and stay
pending. -/
def haproxyFuturePollC {R : Type} (id : FutureId) (channel : Nat)
    (inner : PollRes R) (globals : CoreLuaGlobals) (app : CoreAppData) :
    PollRes R × CoreLuaGlobals × CoreAppData :=
  match inner with
  | .ready res =>
    let app' :=
      match regLookup app.future2channel id with
      | some chan =>
        if app.pool.length < POOL_MAX_SIZE then
          ⟨chan :: app.pool, regErase app.future2channel id⟩
        else
          ⟨app.pool, regErase app.future2channel id⟩
      | none => app
    (.ready res, globals, app')
  | .pending => (.pending, { activeChannel := some channel }, app)

/-- **C3 counterexample.** The claim says a poll in which the wrapped
operation has resolved "releases the TaskId/registry entry"; in the
notification variant a resolved poll leaves the `FUTURE_RX_MAP` entry of its
id fully intact: polling id 7 with registry `[(7, 3)]` returns Ready yet the
entry for 7 is still registered afterwards. -/
theorem poll_ready_no_release_cex :
    (haproxyFuturePollA 7 (PollRes.ready (Except.ok (0 : Nat))) ⟨none⟩ [(7, 3)]).2.2
      = [(7, 3)] ∧
    regLookup (haproxyFuturePollA 7 (PollRes.ready (Except.ok (0 : Nat)))
      ⟨none⟩ [(7, 3)]).2.2 7 = some 3 :=
  ⟨rfl, rfl⟩

/-- **C3 (amended).** Each pending poll re-records the active wait handle and
returns Pending (the TaskId in the notification variant, the wake channel in
the channel variant), and each resolved poll returns Ready carrying the
operation's value or error; only the channel variant releases bridge state on
Ready — it removes the id's channel entry and returns the channel to the pool
when below capacity — while the notification variant leaves the registry
untouched (its entry is consumed by the notification server or overwritten on
id reuse). -/
theorem poll_behaviour (R : Type) (id channel : Nat) (res : Except String R)
    (g : AsyncLuaGlobals) (reg : Registry) (cg : CoreLuaGlobals)
    (app : CoreAppData) :
    haproxyFuturePollA id (PollRes.pending : PollRes R) g reg
      = (.pending, ⟨some id⟩, reg) ∧
    haproxyFuturePollA id (PollRes.ready res) g reg = (.ready res, g, reg) ∧
    haproxyFuturePollC id channel (PollRes.pending : PollRes R) cg app
      = (.pending, ⟨some channel⟩, app) ∧
    (haproxyFuturePollC id channel (PollRes.ready res) cg app).1 = .ready res ∧
    (∀ chan, regLookup app.future2channel id = some chan →
      regLookup (haproxyFuturePollC id channel (PollRes.ready res)
        cg app).2.2.future2channel id = none ∧
      (app.pool.length < POOL_MAX_SIZE →
        (haproxyFuturePollC id channel (PollRes.ready res) cg app).2.2.pool
          = chan :: app.pool)) := by
  refine ⟨rfl, rfl, rfl, rfl, ?_⟩
  intro chan hchan
  constructor
  · by_cases hlen : app.pool.length < POOL_MAX_SIZE <;>
      simp [haproxyFuturePollC, hchan, hlen, regLookup_regErase_self]
  · intro hlen
    simp [haproxyFuturePollC, hchan, hlen]

/-- Witness for the amended C3 at a concrete channel-variant state. -/
theorem poll_behaviour_witness :
    regLookup (haproxyFuturePollC 7 1 (PollRes.ready (Except.ok (0 : Nat)))
      ⟨none⟩ ⟨[], [(7, 5)]⟩).2.2.future2channel 7 = none ∧
    (haproxyFuturePollC 7 1 (PollRes.ready (Except.ok (0 : Nat)))
      ⟨none⟩ ⟨[], [(7, 5)]⟩).2.2.pool = [5] :=
  ⟨((poll_behaviour Nat 7 1 (Except.ok 0) ⟨none⟩ [] ⟨none⟩ ⟨[], [(7, 5)]⟩).2.2.2.2
      5 (by decide)).1,
   ((poll_behaviour Nat 7 1 (Except.ok 0) ⟨none⟩ [] ⟨none⟩ ⟨[], [(7, 5)]⟩).2.2.2.2
      5 (by decide)).2 (by decide)⟩

/-!
`create_async_function` (src/async.rs:118-153), the per-invocation closure:
allocate a fresh future id, convert the script arguments, and only when the
conversion succeeds register a completion receiver and spawn the operation on
the worker runtime.
-/

/-- Bridge state visible to one invocation: the id counter, the
`FUTURE_RX_MAP` registry, and the ids of operations spawned on the runtime. -/
structure BridgeState where
  counter : Nat
  reg : Registry
  spawned : List FutureId
deriving DecidableEq

/-- Result of invoking the created async function: an immediately ready
conversion error (`Either::Left(future::ready(Err(err)))`) or a pending
`HaproxyFuture` carrying the allocated id (`Either::Right`). -/
inductive CallOutcome where
  | immediateError (e : String)
  | pendingFuture (id : FutureId)
deriving DecidableEq

/-- One invocation of the async function (src/async.rs:127-152): generate a
new future id, convert the arguments (`argsConv` is the outcome of
`A::from_lua_multi`); on conversion failure return the error at once; on
success register the fresh receiver `rx` under the id and spawn the
operation. -/
def invokeAsyncFunction (argsConv : Except String Nat) (rx : Rx)
    (st : BridgeState) : CallOutcome × BridgeState :=
  let id := st.counter
  let st1 : BridgeState := { st with counter := (st.counter + 1) % idWidth }
  match argsConv with
  | .error e => (.immediateError e, st1)
  | .ok _args =>
    (.pendingFuture id,
     { st1 with
        reg := set_rx_by_future_id st1.reg id rx,
        spawned := st1.spawned ++ [id] })

/-- **C9.** When conversion of the script-supplied arguments fails, the call
immediately returns that conversion error, and on this error path no
completion receiver is registered and no background operation is spawned for
the already-allocated id — only the id counter has moved; on the success path
the same invocation does register the receiver and spawn the operation. -/
theorem conversion_error_leaves_bridge_unchanged (err : String) (args : Nat)
    (rx : Rx) (st : BridgeState) :
    ((invokeAsyncFunction (Except.error err) rx st).1
        = CallOutcome.immediateError err ∧
      (invokeAsyncFunction (Except.error err) rx st).2.reg = st.reg ∧
      (invokeAsyncFunction (Except.error err) rx st).2.spawned = st.spawned ∧
      (invokeAsyncFunction (Except.error err) rx st).2.counter
        = (st.counter + 1) % idWidth) ∧
    ((invokeAsyncFunction (Except.ok args) rx st).1
        = CallOutcome.pendingFuture st.counter ∧
      (invokeAsyncFunction (Except.ok args) rx st).2.reg
        = set_rx_by_future_id st.reg st.counter rx ∧
      (invokeAsyncFunction (Except.ok args) rx st).2.spawned
        = st.spawned ++ [st.counter]) :=
  ⟨⟨rfl, rfl, rfl, rfl⟩, ⟨rfl, rfl, rfl⟩⟩

end HaproxyApi
